import Mathlib

/-!
domini: a DOM adapter over the syscall/js interop boundary

Shallow embedding of `domini.go`.  Every method of the single concrete
type `dom` forwards to a named operation of the host interop primitive
(`js.Value.Get`, `Set`, `Call`, `Index`, `Length`, `js.FuncOf`,
`js.Func.Release`).  The host itself (the browser and syscall/js) is not part
of the repository: it is a parameter `Host` of the development, and every
interop operation issued by the adapter is recorded in a log, so that the
statements below can speak about which host operations a method performs.
-/

namespace Domini

/-- Ways a Go call can fail to return normally (a panic). -/
inductive Fault where
  | nilDeref
  | indexRange
  | typeMismatch
  | host
  deriving DecidableEq, Repr

deriving instance DecidableEq for Except

/-- Go values handed to the host as arguments of `Set`, `Call` and `New`. -/
inductive Arg (V : Type) where
  | str (s : String)
  | bool (b : Bool)
  | val (v : V)
  | func (id : Nat)
  deriving DecidableEq, Repr

/-- Interop operations, as they are recorded in the log. -/
inductive HostOp (V : Type) where
  | get (recv : V) (name : String)
  | set (recv : V) (name : String) (x : Arg V)
  | call (recv : V) (method : String) (args : List (Arg V))
  | new (ctor : V) (args : List (Arg V))
  | length (recv : V)
  | index (recv : V) (i : Nat)
  | funcOf (id : Nat)
  | release (id : Nat)
  deriving DecidableEq, Repr

/-- A request of the host to run the Go function `id` (made with `js.FuncOf`)
synchronously, with the given receiver and arguments. -/
structure Invocation (V : Type) where
  id : Nat
  this : V
  args : List V
  deriving DecidableEq, Repr

/-- The host side of the interop boundary (syscall/js plus the browser), over
host states `σ` and host value references `V`.  Reads (`get`, `length`,
`index`) do not change the host state; `set`, `call` and `new` may.  A `call`
also reports which Go functions the host invoked while it ran. -/
structure Host (σ V : Type) where
  global : V
  null : V
  undefined : V
  isNull : V → Bool
  isUndefined : V → Bool
  string : V → String
  bool : V → Except Fault Bool
  get : σ → V → String → Except Fault V
  set : σ → V → String → Arg V → Except Fault σ
  call : σ → V → String → List (Arg V) → Except Fault (V × σ × List (Invocation V))
  new : σ → V → List (Arg V) → Except Fault (V × σ)
  length : σ → V → Except Fault Nat
  index : σ → V → Nat → Except Fault V

/-- A Go function value as registered with `js.FuncOf`: it receives `this`
and the argument list and acts on the state `κ` of the Go caller. -/
abbrev GoFunc (V κ : Type) := V → List V → κ → Except Fault κ

/-- The state of a run: the host state, the table of live Go functions kept by
syscall/js (`funcs`, `nextFuncID`), the state of the Go caller that callbacks
act on, the log of interop operations issued so far, and the ids the host
tried to invoke after they were released (syscall/js reports these on the
console). -/
structure Runtime (σ V κ : Type) where
  host : σ
  funcs : List (Nat × GoFunc V κ)
  nextFuncID : Nat
  caller : κ
  log : List (HostOp V)
  console : List Nat

/-- Computations of the adapter: a run either returns a value or faults; the
state reached is kept in both cases. -/
def JS (σ V κ α : Type) := Runtime σ V κ → Except Fault α × Runtime σ V κ

/-- Sequencing: a fault stops the run at the state reached. -/
def JS.bind {σ V κ α β : Type} (m : JS σ V κ α) (f : α → JS σ V κ β) : JS σ V κ β :=
  fun rt =>
    match m rt with
    | (.ok a, rt1) => f a rt1
    | (.error e, rt1) => (.error e, rt1)

instance {σ V κ : Type} : Monad (JS σ V κ) where
  pure a := fun rt => (.ok a, rt)
  bind := JS.bind

/-- A panic. -/
def JS.fault {σ V κ α : Type} (e : Fault) : JS σ V κ α := fun rt => (.error e, rt)

/-- Append one operation to the log. -/
def Runtime.record {σ V κ : Type} (rt : Runtime σ V κ) (op : HostOp V) : Runtime σ V κ :=
  { rt with log := rt.log ++ [op] }

/-- Look a function id up in the table of live Go functions. -/
def lookupFunc {V κ : Type} : List (Nat × GoFunc V κ) → Nat → Option (GoFunc V κ)
  | [], _ => none
  | (j, f) :: rest, id => if j = id then some f else lookupFunc rest id

/-- The event handler of syscall/js: run one invocation requested by the host.
A function that was released is not run; the attempt is reported on the
console and the run goes on. -/
def handleEvent {σ V κ : Type} (inv : Invocation V) : JS σ V κ Unit := fun rt =>
  match lookupFunc rt.funcs inv.id with
  | none => (.ok (), { rt with console := rt.console ++ [inv.id] })
  | some f =>
    match f inv.this inv.args rt.caller with
    | .ok k => (.ok (), { rt with caller := k })
    | .error e => (.error e, rt)

/-- Run the invocations the host made during a call, in order. -/
def handleEvents {σ V κ : Type} : List (Invocation V) → JS σ V κ Unit
  | [] => pure ()
  | inv :: rest => do
    handleEvent inv
    handleEvents rest

/-- The primitive `js.Value.Get`. -/
def Value.Get {σ V κ : Type} (H : Host σ V) (v : V) (name : String) : JS σ V κ V := fun rt =>
  let rt1 := rt.record (.get v name)
  match H.get rt.host v name with
  | .ok r => (.ok r, rt1)
  | .error e => (.error e, rt1)

/-- The primitive `js.Value.Set`. -/
def Value.Set {σ V κ : Type} (H : Host σ V) (v : V) (name : String) (x : Arg V) :
    JS σ V κ Unit := fun rt =>
  let rt1 := rt.record (.set v name x)
  match H.set rt.host v name x with
  | .ok s => (.ok (), { rt1 with host := s })
  | .error e => (.error e, rt1)

/-- The primitive `js.Value.Call`: the host runs the method, and the Go
functions it invokes meanwhile run before `Call` returns. -/
def Value.Call {σ V κ : Type} (H : Host σ V) (v : V) (method : String) (args : List (Arg V)) :
    JS σ V κ V := fun rt =>
  let rt1 := rt.record (.call v method args)
  match H.call rt.host v method args with
  | .error e => (.error e, rt1)
  | .ok (r, s, invs) =>
    match handleEvents invs { rt1 with host := s } with
    | (.ok _, rt2) => (.ok r, rt2)
    | (.error e, rt2) => (.error e, rt2)

/-- The primitive `js.Value.New`. -/
def Value.New {σ V κ : Type} (H : Host σ V) (v : V) (args : List (Arg V)) : JS σ V κ V := fun rt =>
  let rt1 := rt.record (.new v args)
  match H.new rt.host v args with
  | .ok (r, s) => (.ok r, { rt1 with host := s })
  | .error e => (.error e, rt1)

/-- The primitive `js.Value.Length`. -/
def Value.Length {σ V κ : Type} (H : Host σ V) (v : V) : JS σ V κ Nat := fun rt =>
  let rt1 := rt.record (.length v)
  match H.length rt.host v with
  | .ok n => (.ok n, rt1)
  | .error e => (.error e, rt1)

/-- The primitive `js.Value.Index`. -/
def Value.Index {σ V κ : Type} (H : Host σ V) (v : V) (i : Nat) : JS σ V κ V := fun rt =>
  let rt1 := rt.record (.index v i)
  match H.index rt.host v i with
  | .ok r => (.ok r, rt1)
  | .error e => (.error e, rt1)

/-- The primitive `js.Value.Bool`: panics on a value that is not a boolean. -/
def Value.Bool {σ V κ : Type} (H : Host σ V) (v : V) : JS σ V κ Bool := fun rt =>
  match H.bool v with
  | .ok b => (.ok b, rt)
  | .error e => (.error e, rt)

/-- The primitive `js.FuncOf`: the function gets the next id and is entered in
the table of live functions. -/
def FuncOf {σ V κ : Type} (f : GoFunc V κ) : JS σ V κ Nat := fun rt =>
  let id := rt.nextFuncID
  (.ok id, { rt with funcs := (id, f) :: rt.funcs, nextFuncID := id + 1,
                     log := rt.log ++ [.funcOf id] })

/-- The primitive `js.Func.Release`: the function leaves the table of live
functions.  Nothing is sent to the host. -/
def Func.Release {σ V κ : Type} (id : Nat) : JS σ V κ Unit := fun rt =>
  (.ok (), { rt with funcs := rt.funcs.filter (fun p => p.1 != id),
                     log := rt.log ++ [.release id] })

/-- The struct `dom`: one embedded `js.Value`. -/
structure dom (V : Type) where
  Value : V
  deriving DecidableEq, Repr

/-- A `*dom`: `none` is the nil pointer. -/
abbrev Ptr (V : Type) := Option (dom V)

/-- Field access `d.Value` through a `*dom`: a nil pointer panics. -/
def deref {σ V κ : Type} (d : Ptr V) : JS σ V κ V :=
  match d with
  | none => JS.fault .nilDeref
  | some w => pure w.Value

section Methods

variable {σ V κ : Type} (H : Host σ V)

/-- `func (d *dom) Underlying() js.Value`. -/
def Underlying (d : Ptr V) : JS σ V κ V :=
  deref d

/-- `func (d *dom) IsNull() bool`. -/
def IsNull (d : Ptr V) : JS σ V κ Bool :=
  if d.isNone then pure true
  else do
    let v ← Underlying d
    pure (H.isNull v)

/-- `func (d *dom) IsUndefined() bool`. -/
def IsUndefined (d : Ptr V) : JS σ V κ Bool := do
  let v ← Underlying d
  pure (H.isUndefined v)

/-- `func (d *dom) Document() Document`. -/
def Document (d : Ptr V) : JS σ V κ (Ptr V) := do
  let v ← deref d
  let r ← Value.Get H v "document"
  pure (some ⟨r⟩)

/-- `func (d *dom) QuerySelector(query string) HTMLElement`. -/
def QuerySelector (d : Ptr V) (query : String) : JS σ V κ (Ptr V) := do
  let v ← deref d
  let r ← Value.Call H v "querySelector" [.str query]
  pure (some ⟨r⟩)

/-- The loop `for i := 0; i < raw.Length(); i++ { list = append(list, &dom{raw.Index(i)}) }`
of `QuerySelectorAll` and `ChildElements`, entered with counter `i` and the
slice `list` built so far.  The length is read from the host before every
iteration. -/
def collect (raw : V) (i : Nat) (list : List (Ptr V)) (rt : Runtime σ V κ) :
    Except Fault (List (Ptr V)) × Runtime σ V κ :=
  match _hlen : H.length rt.host raw with
  | .error e => (.error e, rt.record (.length raw))
  | .ok n =>
    if _hi : i < n then
      match H.index rt.host raw i with
      | .error e => (.error e, (rt.record (.length raw)).record (.index raw i))
      | .ok x =>
        collect raw (i + 1) (list ++ [some ⟨x⟩])
          ((rt.record (.length raw)).record (.index raw i))
    else (.ok list, rt.record (.length raw))
termination_by (match H.length rt.host raw with
  | .ok n => n
  | .error _ => 0) - i
decreasing_by
  simp only [Runtime.record, _hlen]
  omega

/-- `func (d *dom) QuerySelectorAll(query string) []HTMLElement`. -/
def QuerySelectorAll (d : Ptr V) (query : String) : JS σ V κ (List (Ptr V)) := do
  let v ← deref d
  let raw ← Value.Call H v "querySelectorAll" [.str query]
  let _cap ← Value.Length H raw
  collect H raw 0 []

/-- `func (d *dom) GetElementByID(id string) HTMLElement`. -/
def GetElementByID (d : Ptr V) (id : String) : JS σ V κ (Ptr V) := do
  let v ← deref d
  let r ← Value.Call H v "getElementById" [.str id]
  pure (some ⟨r⟩)

/-- `func (d *dom) Body() HTMLElement`. -/
def Body (d : Ptr V) : JS σ V κ (Ptr V) := do
  let v ← deref d
  let r ← Value.Get H v "body"
  pure (some ⟨r⟩)

/-- `func (d *dom) DocumentElement() HTMLElement`. -/
def DocumentElement (d : Ptr V) : JS σ V κ (Ptr V) := do
  let v ← deref d
  let r ← Value.Get H v "documentElement"
  pure (some ⟨r⟩)

/-- `func (d *dom) CreateElement(tag string) HTMLElement`. -/
def CreateElement (d : Ptr V) (tag : String) : JS σ V κ (Ptr V) := do
  let v ← deref d
  let r ← Value.Call H v "createElement" [.str tag]
  pure (some ⟨r⟩)

/-- `func (d *dom) CreateElementNS(ns, tag string) HTMLElement`. -/
def CreateElementNS (d : Ptr V) (ns tag : String) : JS σ V κ (Ptr V) := do
  let v ← deref d
  let r ← Value.Call H v "createElementNS" [.str ns, .str tag]
  pure (some ⟨r⟩)

/-- `func (d *dom) ID() string`. -/
def ID (d : Ptr V) : JS σ V κ String := do
  let v ← deref d
  let r ← Value.Get H v "id"
  pure (H.string r)

/-- `func (d *dom) SetID(id string)`. -/
def SetID (d : Ptr V) (id : String) : JS σ V κ Unit := do
  let v ← deref d
  Value.Set H v "id" (.str id)

/-- `func (d *dom) TagName() string`. -/
def TagName (d : Ptr V) : JS σ V κ String := do
  let v ← deref d
  let r ← Value.Get H v "tagName"
  pure (H.string r)

/-- `func (d *dom) AppendChild(el HTMLElement)`. -/
def AppendChild (d : Ptr V) (el : Ptr V) : JS σ V κ Unit := do
  let v ← deref d
  let c ← Underlying el
  let _ ← Value.Call H v "appendChild" [.val c]
  pure ()

/-- `func (d *dom) RemoveChild(el HTMLElement)`. -/
def RemoveChild (d : Ptr V) (el : Ptr V) : JS σ V κ Unit := do
  let v ← deref d
  let c ← Underlying el
  let _ ← Value.Call H v "removeChild" [.val c]
  pure ()

/-- `func (d *dom) ChildElements() []HTMLElement`. -/
def ChildElements (d : Ptr V) : JS σ V κ (List (Ptr V)) := do
  let v ← deref d
  let raw ← Value.Get H v "children"
  let _cap ← Value.Length H raw
  collect H raw 0 []

/-- `func (d *dom) ParentElement() HTMLElement`. -/
def ParentElement (d : Ptr V) : JS σ V κ (Ptr V) := do
  let v ← deref d
  let raw ← Value.Get H v "parentElement"
  pure (some ⟨raw⟩)

/-- `func (d *dom) Class() Class`. -/
def Class (d : Ptr V) : JS σ V κ (Ptr V) := do
  let v ← deref d
  let r ← Value.Get H v "classList"
  pure (some ⟨r⟩)

/-- `func (d *dom) Add(classes ...string)`: one host call per entry, in order. -/
def Add (d : Ptr V) : List String → JS σ V κ Unit
  | [] => pure ()
  | cl :: rest => do
    let v ← deref d
    let _ ← Value.Call H v "add" [.str cl]
    Add d rest

/-- `func (d *dom) Remove(classes ...string)`: one host call per entry, in order. -/
def Remove (d : Ptr V) : List String → JS σ V κ Unit
  | [] => pure ()
  | cl :: rest => do
    let v ← deref d
    let _ ← Value.Call H v "remove" [.str cl]
    Remove d rest

/-- `func (d *dom) Contains(class string) bool`. -/
def Contains (d : Ptr V) (cls : String) : JS σ V κ Bool := do
  let v ← deref d
  let r ← Value.Call H v "contains" [.str cls]
  Value.Bool H r

/-- `func (d *dom) Style() Style`. -/
def Style (d : Ptr V) : JS σ V κ (Ptr V) := do
  let v ← deref d
  let r ← Value.Get H v "style"
  pure (some ⟨r⟩)

/-- `func (d *dom) SetInnerHTML(html string)`. -/
def SetInnerHTML (d : Ptr V) (html : String) : JS σ V κ Unit := do
  let v ← deref d
  Value.Set H v "innerHTML" (.str html)

/-- `func (d *dom) InnerHTML() string`. -/
def InnerHTML (d : Ptr V) : JS σ V κ String := do
  let v ← deref d
  let r ← Value.Get H v "innerHTML"
  pure (H.string r)

/-- `func (d *dom) SetAttribute(attr, value string)`. -/
def SetAttribute (d : Ptr V) (attr value : String) : JS σ V κ Unit := do
  let v ← deref d
  let _ ← Value.Call H v "setAttribute" [.str attr, .str value]
  pure ()

/-- `func (d *dom) SetData(name, value string)`. -/
def SetData (d : Ptr V) (name value : String) : JS σ V κ Unit := do
  let v ← deref d
  let ds ← Value.Get H v "dataset"
  Value.Set H ds name (.str value)

/-- `func (d *dom) Data(name string) js.Value`. -/
def Data (d : Ptr V) (name : String) : JS σ V κ V := do
  let v ← deref d
  let ds ← Value.Get H v "dataset"
  Value.Get H ds name

/-- `func (d *dom) SetProperty(prop, value, prio string)`. -/
def SetProperty (d : Ptr V) (prop value prio : String) : JS σ V κ Unit := do
  let v ← deref d
  let _ ← Value.Call H v "setProperty" [.str prop, .str value, .str prio]
  pure ()

/-- `func (d *dom) Property(prop string) string`. -/
def Property (d : Ptr V) (prop : String) : JS σ V κ String := do
  let v ← deref d
  let r ← Value.Get H v prop
  pure (H.string r)

/-- `func (d *dom) RemoveProperty(prop string)`. -/
def RemoveProperty (d : Ptr V) (prop : String) : JS σ V κ Unit := do
  let v ← deref d
  let _ ← Value.Call H v "removeProperty" [.str prop]
  pure ()

/-- `func (d *dom) PreventDefault()`. -/
def PreventDefault (d : Ptr V) : JS σ V κ Unit := do
  let v ← deref d
  let _ ← Value.Call H v "preventDefault" []
  pure ()

/-- `func (d *dom) StopPropagation()`. -/
def StopPropagation (d : Ptr V) : JS σ V κ Unit := do
  let v ← deref d
  let _ ← Value.Call H v "stopPropagation" []
  pure ()

/-- `func (d *dom) DispatchEvent(ev Event)`. -/
def DispatchEvent (d : Ptr V) (ev : Ptr V) : JS σ V κ Unit := do
  let v ← deref d
  let e ← Underlying ev
  let _ ← Value.Call H v "dispatchEvent" [.val e]
  pure ()

/-- `func Null() js.Value`. -/
def Null : V := H.null

/-- `func Undefined() js.Value`. -/
def Undefined : V := H.undefined

/-- `func GetWindow() Window`. -/
def GetWindow : Ptr V := some ⟨H.global⟩

/-- The closure `func(this js.Value, args []js.Value) interface{}` built by
`AddEventListener`: it wraps `args[0]` and calls `function` on the wrapper. -/
def bridge (function : Ptr V → κ → κ) : GoFunc V κ := fun _this args k =>
  match args with
  | [] => .error .indexRange
  | x :: _ => .ok (function (some ⟨x⟩) k)

/-- `func (d *dom) AddEventListener(event string, useCapture bool, function func(Event)) js.Func`. -/
def AddEventListener (d : Ptr V) (event : String) (useCapture : Bool)
    (function : Ptr V → κ → κ) : JS σ V κ Nat := do
  let cb ← FuncOf (bridge function)
  let v ← deref d
  let _ ← Value.Call H v "addEventListener" [.str event, .func cb, .bool useCapture]
  pure cb

/-- `func (d *dom) RemoveEventListener(event string, useCapture bool, cb js.Func)`:
the body is `cb.Release()` alone. -/
def RemoveEventListener (_d : Ptr V) (_event : String) (_useCapture : Bool) (cb : Nat) :
    JS σ V κ Unit :=
  Func.Release cb

/-- `func NewEvent(t string) Event`. -/
def NewEvent (t : String) : JS σ V κ (Ptr V) := do
  let ctor ← Value.Get H H.global "Event"
  let r ← Value.New H ctor [.str t]
  pure (some ⟨r⟩)

end Methods

/-! ## A reference host

A small host used to run the adapter on concrete inputs: a window, a document
and one element `el` with a class list, a style declaration, a dataset, child
elements and event listeners.  It follows the DOM where the adapter touches
it: class tokens that are empty or contain a blank are rejected, the style
object exposes its declarations as named properties except custom properties
(names starting with two dashes), which only the declaration methods reach,
and `dispatchEvent` invokes every listener registered for the event type. -/

/-- Host values of the reference host. -/
inductive RefVal where
  | null
  | undefined
  | str (s : String)
  | bool (b : Bool)
  | window
  | document
  | el
  | kid (n : Nat)
  | classList
  | style
  | dataset
  | children
  | nodeList (items : List Nat)
  | eventCtor
  | event (type : String)
  deriving DecidableEq, Repr

/-- Host state of the reference host. -/
structure RefState where
  classes : List String
  decls : List (String × String × String)
  attrs : List (String × String)
  html : String
  kids : List Nat
  listeners : List (String × Nat × Bool)
  deriving DecidableEq, Repr

/-- Association-list lookup. -/
def assoc {β : Type} : List (String × β) → String → Option β
  | [], _ => none
  | (k, b) :: rest, key => if k = key then some b else assoc rest key

/-- Association-list update: replace the entry of `key`, or add one. -/
def assocSet {β : Type} (xs : List (String × β)) (key : String) (b : β) : List (String × β) :=
  xs.filter (fun p => p.1 != key) ++ [(key, b)]

/-- A class token the DOM accepts: not empty and without a blank. -/
def validToken (c : String) : Bool :=
  c.data != [] && !c.data.contains (Char.ofNat 32)

/-- Names of custom properties start with two dashes. -/
def isCustomProperty (p : String) : Bool :=
  match p.data with
  | a :: b :: _ => a == Char.ofNat 45 && b == Char.ofNat 45
  | _ => false

/-- Attribute value as a host value: the string, or `dflt` when absent. -/
def attrOr (s : RefState) (name : String) (dflt : RefVal) : RefVal :=
  match assoc s.attrs name with
  | some x => .str x
  | none => dflt

/-- Property reads of the reference host. -/
def refGet (s : RefState) (v : RefVal) (name : String) : Except Fault RefVal :=
  match v with
  | .null => .error .host
  | .undefined => .error .host
  | .window =>
    if name = "document" then .ok .document
    else if name = "Event" then .ok .eventCtor
    else .ok .undefined
  | .document =>
    if name = "body" then .ok .el
    else if name = "documentElement" then .ok .el
    else .ok .undefined
  | .el =>
    if name = "classList" then .ok .classList
    else if name = "style" then .ok .style
    else if name = "dataset" then .ok .dataset
    else if name = "children" then .ok .children
    else if name = "parentElement" then .ok .null
    else if name = "id" then .ok (attrOr s "id" (.str ""))
    else if name = "tagName" then .ok (.str "DIV")
    else if name = "innerHTML" then .ok (.str s.html)
    else .ok .undefined
  | .kid _ =>
    if name = "parentElement" then .ok .el
    else if name = "tagName" then .ok (.str "SPAN")
    else .ok .undefined
  | .style =>
    if isCustomProperty name then .ok .undefined
    else
      match assoc s.decls name with
      | some d => .ok (.str d.1)
      | none => .ok (.str "")
  | .dataset => .ok (attrOr s ("data-" ++ name) .undefined)
  | _ => .ok .undefined

/-- Property writes of the reference host. -/
def refSet (s : RefState) (v : RefVal) (name : String) (x : Arg RefVal) : Except Fault RefState :=
  match v, x with
  | .el, .str t =>
    if name = "id" then .ok { s with attrs := assocSet s.attrs "id" t }
    else if name = "innerHTML" then .ok { s with html := t }
    else .ok s
  | .dataset, .str t => .ok { s with attrs := assocSet s.attrs ("data-" ++ name) t }
  | .null, _ => .error .host
  | .undefined, _ => .error .host
  | _, _ => .ok s

/-- Method calls of the reference host. -/
def refCall (s : RefState) (v : RefVal) (method : String) (args : List (Arg RefVal)) :
    Except Fault (RefVal × RefState × List (Invocation RefVal)) :=
  match v, args with
  | .classList, [.str c] =>
    if method = "contains" then .ok (.bool (s.classes.contains c), s, [])
    else if !validToken c then .error .host
    else if method = "add" then
      .ok (.undefined, { s with classes := if s.classes.contains c then s.classes
                                           else s.classes ++ [c] }, [])
    else if method = "remove" then
      .ok (.undefined, { s with classes := s.classes.filter (fun x => x != c) }, [])
    else .error .host
  | .style, [.str p, .str x, .str prio] =>
    if method = "setProperty" then .ok (.undefined, { s with decls := assocSet s.decls p (x, prio) }, [])
    else .error .host
  | .style, [.str p] =>
    if method = "getPropertyValue" then
      match assoc s.decls p with
      | some d => .ok (.str d.1, s, [])
      | none => .ok (.str "", s, [])
    else if method = "removeProperty" then
      .ok (.undefined, { s with decls := s.decls.filter (fun d => d.1 != p) }, [])
    else .error .host
  | .el, [.str a, .str x] =>
    if method = "setAttribute" then .ok (.undefined, { s with attrs := assocSet s.attrs a x }, [])
    else .error .host
  | .el, [.str q] =>
    if method = "querySelectorAll" then
      .ok (.nodeList (if q = "*" then s.kids else []), s, [])
    else if method = "querySelector" then
      match (if q = "*" then s.kids else []) with
      | [] => .ok (.null, s, [])
      | k :: _ => .ok (.kid k, s, [])
    else .error .host
  | .document, [.str q] =>
    if method = "getElementById" then
      .ok (if assoc s.attrs "id" = some q then .el else .null, s, [])
    else if method = "querySelector" then
      .ok (if q = "*" then .el else .null, s, [])
    else .error .host
  | .el, [.val (.kid k)] =>
    if method = "appendChild" then
      .ok (.kid k, { s with kids := s.kids.filter (fun x => x != k) ++ [k] }, [])
    else if method = "removeChild" then
      .ok (.kid k, { s with kids := s.kids.filter (fun x => x != k) }, [])
    else .error .host
  | .el, [.str e, .func f, .bool u] =>
    if method = "addEventListener" then
      .ok (.undefined, { s with listeners := if s.listeners.contains (e, f, u) then s.listeners
                                             else s.listeners ++ [(e, f, u)] }, [])
    else if method = "removeEventListener" then
      .ok (.undefined, { s with listeners := s.listeners.filter (fun l => l != (e, f, u)) }, [])
    else .error .host
  | .el, [.val (.event t)] =>
    if method = "dispatchEvent" then
      .ok (.bool true, s,
        (s.listeners.filter (fun l => l.1 == t)).map (fun l => ⟨l.2.1, .el, [.event t]⟩))
    else .error .host
  | _, _ => .error .host

/-- Sequence lengths of the reference host. -/
def refLength (s : RefState) (v : RefVal) : Except Fault Nat :=
  match v with
  | .children => .ok s.kids.length
  | .nodeList items => .ok items.length
  | _ => .error .typeMismatch

/-- Sequence elements of the reference host. -/
def refIndex (s : RefState) (v : RefVal) (i : Nat) : Except Fault RefVal :=
  match v with
  | .children =>
    match s.kids.get? i with
    | some k => .ok (.kid k)
    | none => .ok .undefined
  | .nodeList items =>
    match items.get? i with
    | some k => .ok (.kid k)
    | none => .ok .undefined
  | _ => .error .typeMismatch

/-- The rendering `js.Value.String` gives of a host value. -/
def refString (v : RefVal) : String :=
  match v with
  | .str t => t
  | .undefined => "<undefined>"
  | .null => "<null>"
  | .bool true => "<boolean: true>"
  | .bool false => "<boolean: false>"
  | _ => "<object>"

/-- The reference host. -/
def refHost : Host RefState RefVal where
  global := .window
  null := .null
  undefined := .undefined
  isNull v := v == .null
  isUndefined v := v == .undefined
  string := refString
  bool v :=
    match v with
    | .bool b => .ok b
    | _ => .error .typeMismatch
  get := refGet
  set := refSet
  call := refCall
  new s v args :=
    match v, args with
    | .eventCtor, [.str t] => .ok (.event t, s)
    | _, _ => .error .host
  length := refLength
  index := refIndex

/-- The reference host before anything happened: an empty element. -/
def refState0 : RefState :=
  { classes := [], decls := [], attrs := [], html := "", kids := [], listeners := [] }

/-- The reference host with two child elements, 3 and 5, under the element. -/
def twoKids : RefState :=
  { refState0 with kids := [3, 5] }

/-- A fresh run over host state `s`, with caller state `k`. -/
def freshRun {σ V κ : Type} (s : σ) (k : κ) : Runtime σ V κ :=
  { host := s, funcs := [], nextFuncID := 0, caller := k, log := [], console := [] }

/-- The loop shared by `Add` and `Remove`: one call of `method` per entry. -/
def callEach {σ V κ : Type} (H : Host σ V) (d : Ptr V) (method : String) :
    List String → JS σ V κ Unit
  | [] => pure ()
  | cl :: rest => do
    let v ← deref d
    let _ ← Value.Call H v method [.str cl]
    callEach H d method rest

/-- Host contract: for the class name `c`, the class list `cl` behaves as a
set of names whose membership is observed by `mem`.  `contains` answers with
the membership of `c` and changes nothing, `add` inserts `c`, `remove` deletes
`c`, and none of them faults or runs a Go function. -/
structure ClassListIsSet {σ V : Type} (H : Host σ V) (cl : V) (mem : σ → String → Bool)
    (c : String) : Prop where
  contains : ∀ s, ∃ r, H.call s cl "contains" [.str c] = .ok (r, s, []) ∧
    H.bool r = .ok (mem s c)
  add : ∀ s, ∃ r s1, H.call s cl "add" [.str c] = .ok (r, s1, []) ∧
    ∀ x, mem s1 x = (x == c || mem s x)
  remove : ∀ s, ∃ r s1, H.call s cl "remove" [.str c] = .ok (r, s1, []) ∧
    ∀ x, mem s1 x = (x != c && mem s x)

/-- The interop reads of `k` rounds of the copying loop entered with counter
`i`: every round reads the length and then the element at the counter; the
last read of the length ends the loop. -/
def readOps {V : Type} (raw : V) : Nat → Nat → List (HostOp V)
  | _, 0 => [.length raw]
  | i, k + 1 => .length raw :: .index raw i :: readOps raw (i + 1) k

/-- Number of property reads and writes on `v` among the operations `ops`. -/
def propertyAccessesOn {V : Type} [DecidableEq V] (v : V) (ops : List (HostOp V)) : Nat :=
  (ops.filter (fun op =>
    match op with
    | .get r _ => decide (r = v)
    | .set r _ _ => decide (r = v)
    | _ => false)).length

/-- Number of property reads and writes among the operations `ops`. -/
def propertyAccesses {V : Type} (ops : List (HostOp V)) : Nat :=
  (ops.filter (fun op =>
    match op with
    | .get _ _ => true
    | .set _ _ _ => true
    | _ => false)).length

/-- Number of method calls among the operations `ops`. -/
def methodCalls {V : Type} (ops : List (HostOp V)) : Nat :=
  (ops.filter (fun op =>
    match op with
    | .call _ _ _ => true
    | _ => false)).length

end Domini

namespace Domini

section Basics

variable {σ V κ : Type}

theorem pure_run {α : Type} (a : α) (rt : Runtime σ V κ) :
    (pure a : JS σ V κ α) rt = (.ok a, rt) := rfl

theorem bind_run {α β : Type} (m : JS σ V κ α) (f : α → JS σ V κ β) (rt : Runtime σ V κ) :
    (m >>= f) rt = JS.bind m f rt := rfl

theorem bind_ok {α β : Type} (m : JS σ V κ α) (f : α → JS σ V κ β) (rt rt1 : Runtime σ V κ)
    (a : α) (h : m rt = (.ok a, rt1)) : JS.bind m f rt = f a rt1 := by
  simp [JS.bind, h]

theorem bind_error {α β : Type} (m : JS σ V κ α) (f : α → JS σ V κ β) (rt rt1 : Runtime σ V κ)
    (e : Fault) (h : m rt = (.error e, rt1)) : JS.bind m f rt = (.error e, rt1) := by
  simp [JS.bind, h]

theorem deref_some (v : V) (rt : Runtime σ V κ) :
    (deref (some ⟨v⟩) : JS σ V κ V) rt = (.ok v, rt) := rfl

theorem deref_none (rt : Runtime σ V κ) :
    (deref none : JS σ V κ V) rt = (.error .nilDeref, rt) := rfl

theorem IsNull_nonnil (H : Host σ V) (rt : Runtime σ V κ) (v : V) :
    IsNull H (some ⟨v⟩) rt = (.ok (H.isNull v), rt) := rfl

theorem handleEvent_keeps (inv : Invocation V) (rt : Runtime σ V κ) :
    (handleEvent inv rt).2.log = rt.log ∧ (handleEvent inv rt).2.host = rt.host ∧
    (handleEvent inv rt).2.funcs = rt.funcs ∧
    (handleEvent inv rt).2.nextFuncID = rt.nextFuncID := by
  unfold handleEvent
  split
  · simp
  · split <;> simp

theorem handleEvents_keeps (invs : List (Invocation V)) (rt : Runtime σ V κ) :
    (handleEvents invs rt).2.log = rt.log ∧ (handleEvents invs rt).2.host = rt.host ∧
    (handleEvents invs rt).2.funcs = rt.funcs ∧
    (handleEvents invs rt).2.nextFuncID = rt.nextFuncID := by
  induction invs generalizing rt with
  | nil => simp [handleEvents, pure_run]
  | cons inv rest ih =>
    have h1 := handleEvent_keeps inv rt
    simp only [handleEvents, bind_run, JS.bind]
    split
    · rename_i a rt1 heq
      rw [heq] at h1
      have h2 := ih rt1
      simp only at h1
      exact ⟨h2.1.trans h1.1, h2.2.1.trans h1.2.1, h2.2.2.1.trans h1.2.2.1,
        h2.2.2.2.trans h1.2.2.2⟩
    · rename_i e rt1 heq
      rw [heq] at h1
      exact h1

theorem Get_log (H : Host σ V) (v : V) (name : String) (rt : Runtime σ V κ) :
    (Value.Get H v name rt).2.log = rt.log ++ [.get v name] := by
  unfold Value.Get
  split <;> rfl

theorem Get_run (H : Host σ V) (v : V) (name : String) (rt : Runtime σ V κ) :
    Value.Get H v name rt = (H.get rt.host v name, rt.record (.get v name)) := by
  unfold Value.Get
  split <;> simp_all

theorem Set_log (H : Host σ V) (v : V) (name : String) (x : Arg V) (rt : Runtime σ V κ) :
    (Value.Set H v name x rt).2.log = rt.log ++ [.set v name x] := by
  unfold Value.Set
  split <;> rfl

theorem Call_log (H : Host σ V) (v : V) (method : String) (args : List (Arg V))
    (rt : Runtime σ V κ) :
    (Value.Call H v method args rt).2.log = rt.log ++ [.call v method args] := by
  unfold Value.Call
  split
  · rfl
  · rename_i r s invs heq
    have h := (handleEvents_keeps invs
      ({ (rt.record (.call v method args)) with host := s } : Runtime σ V κ)).1
    dsimp only at h ⊢
    generalize handleEvents invs _ = res at h ⊢
    obtain ⟨x, rt2⟩ := res
    cases x <;> exact h

theorem bind_pure_snd {α β : Type} (m : JS σ V κ α) (g : α → β) (rt : Runtime σ V κ) :
    (JS.bind m (fun a => pure (g a)) rt).2 = (m rt).2 := by
  unfold JS.bind
  split <;> simp_all [pure_run]

theorem bind_pure_fst {α β : Type} (m : JS σ V κ α) (g : α → β) (rt : Runtime σ V κ) :
    (JS.bind m (fun a => pure (g a)) rt).1 = (m rt).1.map g := by
  unfold JS.bind
  split <;> simp_all [pure_run, Except.map]

theorem Call_error (H : Host σ V) (v : V) (method : String) (args : List (Arg V))
    (rt : Runtime σ V κ) (e : Fault) (h : H.call rt.host v method args = .error e) :
    Value.Call H v method args rt = (.error e, rt.record (.call v method args)) := by
  unfold Value.Call
  simp only [h]

theorem Call_ok_nil (H : Host σ V) (v : V) (method : String) (args : List (Arg V))
    (rt : Runtime σ V κ) (r : V) (s : σ) (h : H.call rt.host v method args = .ok (r, s, [])) :
    Value.Call H v method args rt
      = (.ok r, { rt with host := s, log := rt.log ++ [.call v method args] }) := by
  unfold Value.Call
  simp only [h, handleEvents, pure_run, Runtime.record]

theorem Add_eq_callEach (H : Host σ V) (d : Ptr V) (cs : List String) :
    (Add H d cs : JS σ V κ Unit) = callEach H d "add" cs := by
  induction cs with
  | nil => rfl
  | cons c rest ih => simp only [Add, callEach, ih]

theorem Remove_eq_callEach (H : Host σ V) (d : Ptr V) (cs : List String) :
    (Remove H d cs : JS σ V κ Unit) = callEach H d "remove" cs := by
  induction cs with
  | nil => rfl
  | cons c rest ih => simp only [Remove, callEach, ih]

theorem callEach_cons (H : Host σ V) (v : V) (m c : String) (rest : List String)
    (rt : Runtime σ V κ) :
    callEach H (some ⟨v⟩) m (c :: rest) rt
      = JS.bind (Value.Call H v m [.str c]) (fun _ => callEach H (some ⟨v⟩) m rest) rt := by
  simp only [callEach, bind_run, bind_ok _ _ _ _ _ (deref_some v rt)]

theorem callEach_ok_log (H : Host σ V) (v : V) (m : String) (cs : List String)
    (rt rt1 : Runtime σ V κ) (h : callEach H (some ⟨v⟩) m cs rt = (.ok (), rt1)) :
    rt1.log = rt.log ++ cs.map (fun c => HostOp.call v m [.str c]) := by
  induction cs generalizing rt with
  | nil =>
    simp only [callEach, pure_run, Prod.mk.injEq] at h
    simp [← h.2]
  | cons c rest ih =>
    rw [callEach_cons] at h
    have hl := Call_log H v m [.str c] rt
    unfold JS.bind at h
    split at h
    · rename_i a rt2 heq
      rw [heq] at hl
      rw [ih rt2 h, hl]
      simp
    · simp at h

theorem callEach_total (H : Host σ V) (v : V) (m : String) (cs : List String)
    (hc : ∀ c ∈ cs, ∀ s, ∃ r s1, H.call s v m [.str c] = .ok (r, s1, []))
    (rt : Runtime σ V κ) : ∃ rt1, callEach H (some ⟨v⟩) m cs rt = (.ok (), rt1) := by
  induction cs generalizing rt with
  | nil => exact ⟨rt, rfl⟩
  | cons c rest ih =>
    obtain ⟨r, s1, h⟩ := hc c (List.mem_cons_self c rest) rt.host
    rw [callEach_cons, bind_ok _ _ _ _ _ (Call_ok_nil H v m _ rt r s1 h)]
    exact ih (fun c1 h1 => hc c1 (List.mem_cons_of_mem c h1)) _

theorem callEach_fault (H : Host σ V) (v : V) (m : String) (pre : List String) (c : String)
    (post : List String) (rt rt1 : Runtime σ V κ) (e : Fault)
    (hpre : callEach H (some ⟨v⟩) m pre rt = (.ok (), rt1))
    (hc : H.call rt1.host v m [.str c] = .error e) :
    callEach H (some ⟨v⟩) m (pre ++ c :: post) rt
      = (.error e, rt1.record (.call v m [.str c])) := by
  induction pre generalizing rt with
  | nil =>
    simp only [callEach, pure_run, Prod.mk.injEq] at hpre
    rw [hpre.2, List.nil_append, callEach_cons, bind_error _ _ _ _ _ (Call_error H v m _ rt1 e hc)]
  | cons p rest ih =>
    rw [callEach_cons] at hpre
    rw [List.cons_append, callEach_cons]
    unfold JS.bind at hpre ⊢
    split at hpre
    · rename_i a rt2 heq
      simp only [heq]
      exact ih rt2 hpre
    · simp at hpre

theorem Bool_run (H : Host σ V) (r : V) (b : Bool) (rt : Runtime σ V κ)
    (h : H.bool r = .ok b) : Value.Bool H r rt = (.ok b, rt) := by
  unfold Value.Bool
  simp only [h]

theorem Contains_run (H : Host σ V) (cl : V) (c : String) (rt : Runtime σ V κ) (r : V) (b : Bool)
    (h : H.call rt.host cl "contains" [.str c] = .ok (r, rt.host, []))
    (hb : H.bool r = .ok b) :
    Contains H (some ⟨cl⟩) c rt
      = (.ok b, { rt with log := rt.log ++ [.call cl "contains" [.str c]] }) := by
  simp only [Contains, bind_run, bind_ok _ _ _ _ _ (deref_some cl rt),
    bind_ok _ _ _ _ _ (Call_ok_nil H cl "contains" _ rt r rt.host h), Bool_run H r b _ hb]

theorem callEach_single (H : Host σ V) (cl : V) (m c : String) (rt : Runtime σ V κ) (r : V)
    (s : σ) (h : H.call rt.host cl m [.str c] = .ok (r, s, [])) :
    callEach H (some ⟨cl⟩) m [c] rt
      = (.ok (), { rt with host := s, log := rt.log ++ [.call cl m [.str c]] }) := by
  rw [callEach_cons, bind_ok _ _ _ _ _ (Call_ok_nil H cl m _ rt r s h)]
  rfl

theorem refHost_classList_isSet (c : String) (hc : validToken c = true) :
    ClassListIsSet refHost .classList (fun s x => s.classes.contains x) c := by
  refine ⟨?_, ?_, ?_⟩
  · intro s
    exact ⟨.bool (s.classes.contains c), rfl, rfl⟩
  · intro s
    refine ⟨.undefined, { s with classes := if s.classes.contains c then s.classes
      else s.classes ++ [c] }, ?_, ?_⟩
    · simp [refHost, refCall, hc]
    · intro x
      by_cases hx : x = c
      · subst hx
        by_cases hm : x ∈ s.classes <;> simp [hm]
      · by_cases hm : c ∈ s.classes <;> simp [hm, hx]
  · intro s
    refine ⟨.undefined, { s with classes := s.classes.filter (fun x => x != c) }, ?_, ?_⟩
    · simp [refHost, refCall, hc]
    · intro x
      by_cases hx : x = c
      · subst hx
        simp
      · simp [hx]

theorem set_add_step (H : Host σ V) (cl : V) (mem : σ → String → Bool) (c : String)
    (hset : ClassListIsSet H cl mem c) (rt : Runtime σ V κ) :
    ∃ rt1, Add H (some ⟨cl⟩) [c] rt = (.ok (), rt1) ∧
      ∀ x, mem rt1.host x = (x == c || mem rt.host x) := by
  obtain ⟨r, s1, h, hm⟩ := hset.add rt.host
  exact ⟨_, by rw [Add_eq_callEach]; exact callEach_single H cl "add" c rt r s1 h, hm⟩

theorem set_remove_step (H : Host σ V) (cl : V) (mem : σ → String → Bool) (c : String)
    (hset : ClassListIsSet H cl mem c) (rt : Runtime σ V κ) :
    ∃ rt1, Remove H (some ⟨cl⟩) [c] rt = (.ok (), rt1) ∧
      ∀ x, mem rt1.host x = (x != c && mem rt.host x) := by
  obtain ⟨r, s1, h, hm⟩ := hset.remove rt.host
  exact ⟨_, by rw [Remove_eq_callEach]; exact callEach_single H cl "remove" c rt r s1 h, hm⟩

theorem set_contains_step (H : Host σ V) (cl : V) (mem : σ → String → Bool) (c : String)
    (hset : ClassListIsSet H cl mem c) (rt : Runtime σ V κ) :
    ∃ rt1, Contains H (some ⟨cl⟩) c rt = (.ok (mem rt.host c), rt1) ∧ rt1.host = rt.host := by
  obtain ⟨r, h, hb⟩ := hset.contains rt.host
  exact ⟨_, Contains_run H cl c rt r _ h hb, rfl⟩

theorem readOps_index_bound (raw : V) (i k : Nat) (op : HostOp V) (hop : op ∈ readOps raw i k)
    (r : V) (j : Nat) (hj : op = .index r j) : r = raw ∧ i ≤ j ∧ j < i + k := by
  induction k generalizing i with
  | zero =>
    subst hj
    simp [readOps] at hop
  | succ k ih =>
    subst hj
    simp only [readOps, List.mem_cons] at hop
    rcases hop with h | h | h
    · cases h
    · cases h
      exact ⟨rfl, Nat.le_refl _, by omega⟩
    · obtain ⟨h1, h2, h3⟩ := ih (i + 1) h
      exact ⟨h1, by omega, by omega⟩

theorem collect_eq (H : Host σ V) (raw : V) (i : Nat) (acc : List (Ptr V)) :
    collect H raw i acc
      = JS.bind (Value.Length H raw) (fun n =>
          if i < n then
            JS.bind (Value.Index H raw i) (fun x =>
              (collect H raw (i + 1) (acc ++ [some ⟨x⟩]) : JS σ V κ (List (Ptr V))))
          else (pure acc : JS σ V κ (List (Ptr V)))) := by
  funext rt
  rw [collect]
  simp only [bind_run, JS.bind, Value.Length, Value.Index]
  split
  · rename_i e heq
    simp only [heq]
  · rename_i n heq
    simp only [heq]
    by_cases hi : i < n
    · simp only [hi, dite_true, if_true]
      cases hx : H.index rt.host raw i <;> simp [JS.bind, Value.Index, Runtime.record, hx]
    · simp only [hi, dite_false, if_false, pure_run]

theorem collect_run (H : Host σ V) (raw : V) (xs : List V) (s : σ)
    (hlen : H.length s raw = .ok xs.length)
    (hidx : ∀ i (hi : i < xs.length), H.index s raw i = .ok (xs.get ⟨i, hi⟩))
    (k i : Nat) (hk : i + k = xs.length) (acc : List (Ptr V)) (rt : Runtime σ V κ)
    (hs : rt.host = s) :
    collect H raw i acc rt
      = (.ok (acc ++ (xs.drop i).map (fun x => some ⟨x⟩)),
          { rt with log := rt.log ++ readOps raw i k }) := by
  induction k generalizing i acc rt with
  | zero =>
    have hi : ¬ i < xs.length := by omega
    have hd : xs.drop i = [] := List.drop_eq_nil_of_le (by omega)
    rw [collect_eq]
    simp only [bind_run, JS.bind, Value.Length, hs, hlen, hi, if_false, pure_run, hd]
    simp [readOps, Runtime.record, hs]
  | succ k ih =>
    have hi : i < xs.length := by omega
    have hd : xs.drop i = xs.get ⟨i, hi⟩ :: xs.drop (i + 1) := by
      rw [List.get_eq_getElem]
      exact List.drop_eq_getElem_cons hi
    rw [collect_eq]
    simp only [bind_run, JS.bind, Value.Length, Value.Index, hs, hlen, hi, if_true,
      Runtime.record, hidx i hi]
    rw [ih (i + 1) (by omega) _ _ rfl, hd]
    simp only [readOps, List.map_cons, List.append_assoc, List.singleton_append,
      List.cons_append, List.nil_append]

theorem copy_run (H : Host σ V) (raw : V) (xs : List V) (rt1 : Runtime σ V κ)
    (hlen : H.length rt1.host raw = .ok xs.length)
    (hidx : ∀ i (hi : i < xs.length), H.index rt1.host raw i = .ok (xs.get ⟨i, hi⟩)) :
    JS.bind (Value.Length H raw) (fun _ => (collect H raw 0 [] : JS σ V κ (List (Ptr V)))) rt1
      = (.ok (xs.map (fun x => some ⟨x⟩)),
          { rt1 with log := rt1.log ++ .length raw :: readOps raw 0 xs.length }) := by
  have h1 : Value.Length H raw rt1 = (.ok xs.length, rt1.record (.length raw)) := by
    simp only [Value.Length, hlen]
  rw [bind_ok _ _ _ _ _ h1,
    collect_run H raw xs rt1.host hlen hidx xs.length 0 (by omega) []
      (rt1.record (.length raw)) rfl]
  simp [Runtime.record]

theorem then_keep {α : Type} (m : JS σ V κ α) (later : JS σ V κ Unit) (a : α)
    (rt rt1 rt2 : Runtime σ V κ) (h : m rt = (.ok a, rt1)) (hl : later rt1 = (.ok (), rt2)) :
    (m >>= fun l => later >>= fun _ => pure l) rt = (.ok a, rt2) := by
  simp only [bind_run, bind_ok _ _ _ _ _ h, bind_ok _ _ _ _ _ hl, pure_run]

theorem handleEvent_live (inv : Invocation V) (f : GoFunc V κ) (k : κ) (rt : Runtime σ V κ)
    (hf : lookupFunc rt.funcs inv.id = some f) (hk : f inv.this inv.args rt.caller = .ok k) :
    handleEvent inv rt = (.ok (), { rt with caller := k }) := by
  unfold handleEvent
  simp only [hf, hk]

theorem Call_one_invocation (H : Host σ V) (v : V) (method : String) (args : List (Arg V))
    (rt : Runtime σ V κ) (r : V) (s : σ) (inv : Invocation V) (f : GoFunc V κ) (k : κ)
    (h : H.call rt.host v method args = .ok (r, s, [inv]))
    (hf : lookupFunc rt.funcs inv.id = some f) (hk : f inv.this inv.args rt.caller = .ok k) :
    Value.Call H v method args rt
      = (.ok r, { rt with host := s, caller := k, log := rt.log ++ [.call v method args] }) := by
  have he := handleEvent_live inv f k
    ({ host := s, funcs := rt.funcs, nextFuncID := rt.nextFuncID, caller := rt.caller,
       log := rt.log ++ [.call v method args], console := rt.console } : Runtime σ V κ) hf hk
  unfold Value.Call
  simp only [h, handleEvents, bind_run, JS.bind, pure_run, Runtime.record, he]

theorem Dispatch_run (H : Host σ V) (v ev : V) (rt : Runtime σ V κ) (r : V) (s : σ)
    (inv : Invocation V) (f : GoFunc V κ) (k : κ)
    (h : H.call rt.host v "dispatchEvent" [.val ev] = .ok (r, s, [inv]))
    (hf : lookupFunc rt.funcs inv.id = some f) (hk : f inv.this inv.args rt.caller = .ok k) :
    DispatchEvent H (some ⟨v⟩) (some ⟨ev⟩) rt
      = (.ok (), { rt with host := s, caller := k,
                           log := rt.log ++ [.call v "dispatchEvent" [.val ev]] }) := by
  simp only [DispatchEvent, Underlying, bind_run, bind_ok _ _ _ _ _ (deref_some v rt),
    bind_ok _ _ _ _ _ (deref_some ev rt),
    bind_ok _ _ _ _ _ (Call_one_invocation H v "dispatchEvent" _ rt r s inv f k h hf hk),
    pure_run]

end Basics

/-- C4. `IsNull` on a nil `*dom` returns true without a fault and leaves the
whole run state, host included, as it was, whatever the host is; on a wrapper
that is not nil it returns the host's null test of the wrapped value. -/
theorem IsNull_safe {σ V κ : Type} (H : Host σ V) (rt : Runtime σ V κ) :
    IsNull H none rt = (.ok true, rt) ∧
    ∀ v : V, IsNull H (some ⟨v⟩) rt = (.ok (H.isNull v), rt) :=
  ⟨rfl, fun _ => rfl⟩

/-- C3. `IsUndefined` on a nil `*dom` does not return a boolean: it reads
`d.Value` through the nil pointer and panics, for every host and run state. -/
theorem IsUndefined_nil_faults {σ V κ : Type} (H : Host σ V) (rt : Runtime σ V κ) :
    IsUndefined H none rt = (.error .nilDeref, rt) :=
  rfl

/-- C9. Absence is an ordinary result.  Whenever the host answers
`querySelector`, `getElementById` or the read of `parentElement` with a value
`r` that is null, the operation returns without a fault, in the state the host
answer left, a wrapper that is not nil, whose `Underlying` is `r` and whose
`IsNull` is true.  The result type of the three operations is the wrapper
alone: there is no error value to return. -/
theorem absence_is_null_wrapper {σ V κ : Type} (H : Host σ V) (r : V)
    (hnull : H.isNull r = true) :
    (∀ (v : V) (q : String) (rt rt1 : Runtime σ V κ),
      Value.Call H v "querySelector" [.str q] rt = (.ok r, rt1) →
      QuerySelector H (some ⟨v⟩) q rt = (.ok (some ⟨r⟩), rt1)) ∧
    (∀ (v : V) (id : String) (rt rt1 : Runtime σ V κ),
      Value.Call H v "getElementById" [.str id] rt = (.ok r, rt1) →
      GetElementByID H (some ⟨v⟩) id rt = (.ok (some ⟨r⟩), rt1)) ∧
    (∀ (v : V) (rt rt1 : Runtime σ V κ),
      Value.Get H v "parentElement" rt = (.ok r, rt1) →
      ParentElement H (some ⟨v⟩) rt = (.ok (some ⟨r⟩), rt1)) ∧
    (∀ rt1 : Runtime σ V κ,
      (some ⟨r⟩ : Ptr V) ≠ none ∧
      Underlying (some ⟨r⟩) rt1 = (.ok r, rt1) ∧
      IsNull H (some ⟨r⟩) rt1 = (.ok true, rt1)) := by
  refine ⟨?_, ?_, ?_, ?_⟩
  · intro v q rt rt1 h
    simp only [QuerySelector, bind_run, JS.bind, deref_some, h, pure_run]
  · intro v id rt rt1 h
    simp only [GetElementByID, bind_run, JS.bind, deref_some, h, pure_run]
  · intro v rt rt1 h
    simp only [ParentElement, bind_run, JS.bind, deref_some, h, pure_run]
  · intro rt1
    refine ⟨by simp, rfl, ?_⟩
    rw [(IsNull_nonnil H rt1 r), hnull]

/-- Witness of C9 on the reference host: the element has no match for the
selector `p`, the document has no element with id `x`, and the element has no
parent. -/
theorem absence_is_null_wrapper_witness :
    QuerySelector refHost (some ⟨.el⟩) "p" (freshRun refState0 (0 : Nat))
      = (.ok (some ⟨.null⟩),
          (freshRun refState0 (0 : Nat)).record (.call .el "querySelector" [.str "p"])) ∧
    GetElementByID refHost (some ⟨.document⟩) "x" (freshRun refState0 (0 : Nat))
      = (.ok (some ⟨.null⟩),
          (freshRun refState0 (0 : Nat)).record (.call .document "getElementById" [.str "x"])) ∧
    ParentElement refHost (some ⟨.el⟩) (freshRun refState0 (0 : Nat))
      = (.ok (some ⟨.null⟩), (freshRun refState0 (0 : Nat)).record (.get .el "parentElement")) ∧
    IsNull refHost (some ⟨.null⟩) (freshRun refState0 (0 : Nat))
      = (.ok true, freshRun refState0 (0 : Nat)) :=
  ⟨(absence_is_null_wrapper refHost .null rfl).1 .el "p" _ _ rfl,
   (absence_is_null_wrapper refHost .null rfl).2.1 .document "x" _ _ rfl,
   (absence_is_null_wrapper refHost .null rfl).2.2.1 .el _ _ rfl,
   ((absence_is_null_wrapper refHost .null rfl).2.2.2 _).2.2⟩

/-- C7, as amended.  `ID`, `TagName` and `InnerHTML` perform exactly one host
property read on the wrapped value and return the string rendering of what
the host yields; `SetID` and `SetInnerHTML` perform exactly one host property
write on it; `SetAttribute` performs no property access but exactly one host
method call `setAttribute(attr, value)`; `Data` and `SetData` first read the
property `dataset` of the wrapped value and then, when that read succeeds,
read or write the property `name` of the dataset object.  String arguments
reach the host as given. -/
theorem accessor_host_operations {σ V κ : Type} (H : Host σ V) (v : V) (rt : Runtime σ V κ) :
    ((ID H (some ⟨v⟩) rt).2.log = rt.log ++ [.get v "id"] ∧
      (ID H (some ⟨v⟩) rt).1 = (H.get rt.host v "id").map H.string) ∧
    (∀ id : String, (SetID H (some ⟨v⟩) id rt).2.log = rt.log ++ [.set v "id" (.str id)]) ∧
    ((TagName H (some ⟨v⟩) rt).2.log = rt.log ++ [.get v "tagName"] ∧
      (TagName H (some ⟨v⟩) rt).1 = (H.get rt.host v "tagName").map H.string) ∧
    ((InnerHTML H (some ⟨v⟩) rt).2.log = rt.log ++ [.get v "innerHTML"] ∧
      (InnerHTML H (some ⟨v⟩) rt).1 = (H.get rt.host v "innerHTML").map H.string) ∧
    (∀ html : String,
      (SetInnerHTML H (some ⟨v⟩) html rt).2.log = rt.log ++ [.set v "innerHTML" (.str html)]) ∧
    (∀ attr value : String,
      (SetAttribute H (some ⟨v⟩) attr value rt).2.log
        = rt.log ++ [.call v "setAttribute" [.str attr, .str value]]) ∧
    (∀ name : String,
      (Data H (some ⟨v⟩) name rt).2.log
        = rt.log ++ .get v "dataset" ::
            (match H.get rt.host v "dataset" with
              | .ok ds => [.get ds name]
              | .error _ => [])) ∧
    (∀ name value : String,
      (SetData H (some ⟨v⟩) name value rt).2.log
        = rt.log ++ .get v "dataset" ::
            (match H.get rt.host v "dataset" with
              | .ok ds => [.set ds name (.str value)]
              | .error _ => [])) := by
  refine ⟨⟨?_, ?_⟩, ?_, ⟨?_, ?_⟩, ⟨?_, ?_⟩, ?_, ?_, ?_, ?_⟩
  · simp only [ID, bind_run, bind_ok _ _ _ _ _ (deref_some v rt), bind_pure_snd, Get_log]
  · simp only [ID, bind_run, bind_ok _ _ _ _ _ (deref_some v rt), bind_pure_fst, Get_run]
  · intro id
    simp only [SetID, bind_run, bind_ok _ _ _ _ _ (deref_some v rt), Set_log]
  · simp only [TagName, bind_run, bind_ok _ _ _ _ _ (deref_some v rt), bind_pure_snd, Get_log]
  · simp only [TagName, bind_run, bind_ok _ _ _ _ _ (deref_some v rt), bind_pure_fst, Get_run]
  · simp only [InnerHTML, bind_run, bind_ok _ _ _ _ _ (deref_some v rt), bind_pure_snd, Get_log]
  · simp only [InnerHTML, bind_run, bind_ok _ _ _ _ _ (deref_some v rt), bind_pure_fst, Get_run]
  · intro html
    simp only [SetInnerHTML, bind_run, bind_ok _ _ _ _ _ (deref_some v rt), Set_log]
  · intro attr value
    simp only [SetAttribute, bind_run, bind_ok _ _ _ _ _ (deref_some v rt)]
    rw [bind_pure_snd (Value.Call H v "setAttribute" [.str attr, .str value]) (fun _ => ()) rt,
      Call_log]
  · intro name
    rw [Data, bind_run, bind_ok _ _ _ _ _ (deref_some v rt)]
    simp only [bind_run, JS.bind, Get_run]
    cases H.get rt.host v "dataset" <;> simp [Runtime.record]
  · intro name value
    rw [SetData, bind_run, bind_ok _ _ _ _ _ (deref_some v rt)]
    simp only [bind_run, JS.bind, Get_run]
    cases H.get rt.host v "dataset" <;> simp [Runtime.record, Set_log]

/-- C7, counterexample.  On the reference host, `SetAttribute("data-x", "1")`
performs no property access on the wrapped element (its one host operation is
a method call), and `Data("x")` and `SetData("x", "1")` each perform two
property accesses, the second one on the dataset object: none of the three
performs exactly one host property access. -/
theorem accessors_not_one_property_access :
    (SetAttribute refHost (some ⟨.el⟩) "data-x" "1" (freshRun refState0 (0 : Nat))).2.log
      = [.call .el "setAttribute" [.str "data-x", .str "1"]] ∧
    propertyAccessesOn .el
      (SetAttribute refHost (some ⟨.el⟩) "data-x" "1" (freshRun refState0 (0 : Nat))).2.log ≠ 1 ∧
    (Data refHost (some ⟨.el⟩) "x" (freshRun refState0 (0 : Nat))).2.log
      = [.get .el "dataset", .get .dataset "x"] ∧
    propertyAccesses (Data refHost (some ⟨.el⟩) "x" (freshRun refState0 (0 : Nat))).2.log ≠ 1 ∧
    (SetData refHost (some ⟨.el⟩) "x" "1" (freshRun refState0 (0 : Nat))).2.log
      = [.get .el "dataset", .set .dataset "x" (.str "1")] ∧
    propertyAccesses (SetData refHost (some ⟨.el⟩) "x" "1" (freshRun refState0 (0 : Nat))).2.log ≠ 1 := by
  decide

/-- C8.  `SetProperty` and `RemoveProperty` are one host method call each, with
the arguments as given; `Property` is one property read of the name `prop` on
the style object and never a call of `getPropertyValue`.  On the reference
host, after `SetProperty("--accent", "red", "important")` the declaration
getter yields `red` for `--accent`, while `Property("--accent")` returns the
rendering of undefined. -/
theorem Property_reads_named_property :
    (∀ (σ V κ : Type) (H : Host σ V) (v : V) (rt : Runtime σ V κ) (prop value prio : String),
      (SetProperty H (some ⟨v⟩) prop value prio rt).2.log
        = rt.log ++ [.call v "setProperty" [.str prop, .str value, .str prio]] ∧
      (RemoveProperty H (some ⟨v⟩) prop rt).2.log
        = rt.log ++ [.call v "removeProperty" [.str prop]] ∧
      (Property H (some ⟨v⟩) prop rt).2.log = rt.log ++ [.get v prop] ∧
      (Property H (some ⟨v⟩) prop rt).1 = (H.get rt.host v prop).map H.string) ∧
    (SetProperty refHost (some ⟨.style⟩) "--accent" "red" "important"
        (freshRun refState0 (0 : Nat))).2.host.decls = [("--accent", "red", "important")] ∧
    refHost.call
        (SetProperty refHost (some ⟨.style⟩) "--accent" "red" "important"
          (freshRun refState0 (0 : Nat))).2.host
        .style "getPropertyValue" [.str "--accent"]
      = .ok (.str "red",
          (SetProperty refHost (some ⟨.style⟩) "--accent" "red" "important"
            (freshRun refState0 (0 : Nat))).2.host, []) ∧
    (Property refHost (some ⟨.style⟩) "--accent"
        (SetProperty refHost (some ⟨.style⟩) "--accent" "red" "important"
          (freshRun refState0 (0 : Nat))).2).1 = .ok "<undefined>" ∧
    methodCalls ((Property refHost (some ⟨.style⟩) "--accent"
        (freshRun refState0 (0 : Nat))).2.log) = 0 := by
  refine ⟨?_, by decide, by decide, by decide, by decide⟩
  intro σ V κ H v rt prop value prio
  refine ⟨?_, ?_, ?_, ?_⟩
  · simp only [SetProperty, bind_run, bind_ok _ _ _ _ _ (deref_some v rt)]
    rw [bind_pure_snd (Value.Call H v "setProperty" [.str prop, .str value, .str prio])
      (fun _ => ()) rt, Call_log]
  · simp only [RemoveProperty, bind_run, bind_ok _ _ _ _ _ (deref_some v rt)]
    rw [bind_pure_snd (Value.Call H v "removeProperty" [.str prop]) (fun _ => ()) rt, Call_log]
  · simp only [Property, bind_run, bind_ok _ _ _ _ _ (deref_some v rt), bind_pure_snd, Get_log]
  · simp only [Property, bind_run, bind_ok _ _ _ _ _ (deref_some v rt), bind_pure_fst, Get_run]

/-- C1.  `RemoveEventListener` releases the Go function and does nothing else:
for every host it leaves the host state as it was and adds only the release
to the log, so no `removeEventListener` reaches the host.  On the reference
host, after `AddEventListener("click", false, cb)` and `RemoveEventListener`
with the returned handle, the element still lists the bridge as a click
listener, and a later `DispatchEvent` of a click makes the host invoke the
released bridge (reported on the console); the callback itself no longer
runs. -/
theorem RemoveEventListener_keeps_registration :
    (∀ (σ V κ : Type) (d : Ptr V) (e : String) (u : Bool) (cb : Nat)
        (rt : Runtime σ V κ),
      (RemoveEventListener d e u cb rt).1 = .ok () ∧
      (RemoveEventListener d e u cb rt).2.host = rt.host ∧
      (RemoveEventListener d e u cb rt).2.log = rt.log ++ [.release cb]) ∧
    (AddEventListener refHost (some ⟨.el⟩) "click" false (fun _ n => n + 1)
        (freshRun refState0 (0 : Nat))).1 = .ok 0 ∧
    (RemoveEventListener (some ⟨.el⟩) "click" false 0
        (AddEventListener refHost (some ⟨.el⟩) "click" false (fun _ n => n + 1)
          (freshRun refState0 (0 : Nat))).2).2.log
      = [.funcOf 0, .call .el "addEventListener" [.str "click", .func 0, .bool false],
          .release 0] ∧
    (RemoveEventListener (some ⟨.el⟩) "click" false 0
        (AddEventListener refHost (some ⟨.el⟩) "click" false (fun _ n => n + 1)
          (freshRun refState0 (0 : Nat))).2).2.host.listeners = [("click", 0, false)] ∧
    (DispatchEvent refHost (some ⟨.el⟩) (some ⟨.event "click"⟩)
        (RemoveEventListener (some ⟨.el⟩) "click" false 0
          (AddEventListener refHost (some ⟨.el⟩) "click" false (fun _ n => n + 1)
            (freshRun refState0 (0 : Nat))).2).2).2.console = [0] ∧
    (DispatchEvent refHost (some ⟨.el⟩) (some ⟨.event "click"⟩)
        (RemoveEventListener (some ⟨.el⟩) "click" false 0
          (AddEventListener refHost (some ⟨.el⟩) "click" false (fun _ n => n + 1)
            (freshRun refState0 (0 : Nat))).2).2).2.caller = 0 := by
  refine ⟨fun σ V κ d e u cb rt => ⟨rfl, rfl, rfl⟩, by decide, by decide, by decide,
    by decide, by decide⟩

/-- C6.  For a class-list view over `v` and any list `cs` (empty lists and
duplicates included): a run of `Add(cs...)` that returns has issued exactly
one host call per entry, the i-th being `add` with the single argument
`cs[i]`, in list order; it does return when the host accepts each entry; and
when the entries before entry `c` succeeded and the host faults on `c`, the
run faults in the state those entries left (their effect on the host is
kept), with the call for `c` the last one logged and no later entry tried.
`Remove(cs...)` does the same with `remove`. -/
theorem Add_Remove_entrywise {σ V κ : Type} (H : Host σ V) (v : V) :
    (∀ (cs : List String) (rt rt1 : Runtime σ V κ),
      Add H (some ⟨v⟩) cs rt = (.ok (), rt1) →
      rt1.log = rt.log ++ cs.map (fun c => HostOp.call v "add" [.str c])) ∧
    (∀ (cs : List String) (rt : Runtime σ V κ),
      (∀ c ∈ cs, ∀ s, ∃ r s1, H.call s v "add" [.str c] = .ok (r, s1, [])) →
      ∃ rt1, Add H (some ⟨v⟩) cs rt = (.ok (), rt1)) ∧
    (∀ (pre : List String) (c : String) (post : List String) (rt rt1 : Runtime σ V κ) (e : Fault),
      Add H (some ⟨v⟩) pre rt = (.ok (), rt1) →
      H.call rt1.host v "add" [.str c] = .error e →
      Add H (some ⟨v⟩) (pre ++ c :: post) rt
        = (.error e, rt1.record (.call v "add" [.str c]))) ∧
    (∀ (cs : List String) (rt rt1 : Runtime σ V κ),
      Remove H (some ⟨v⟩) cs rt = (.ok (), rt1) →
      rt1.log = rt.log ++ cs.map (fun c => HostOp.call v "remove" [.str c])) ∧
    (∀ (cs : List String) (rt : Runtime σ V κ),
      (∀ c ∈ cs, ∀ s, ∃ r s1, H.call s v "remove" [.str c] = .ok (r, s1, [])) →
      ∃ rt1, Remove H (some ⟨v⟩) cs rt = (.ok (), rt1)) ∧
    (∀ (pre : List String) (c : String) (post : List String) (rt rt1 : Runtime σ V κ) (e : Fault),
      Remove H (some ⟨v⟩) pre rt = (.ok (), rt1) →
      H.call rt1.host v "remove" [.str c] = .error e →
      Remove H (some ⟨v⟩) (pre ++ c :: post) rt
        = (.error e, rt1.record (.call v "remove" [.str c]))) := by
  refine ⟨?_, ?_, ?_, ?_, ?_, ?_⟩
  · intro cs rt rt1 h
    rw [Add_eq_callEach] at h
    exact callEach_ok_log H v "add" cs rt rt1 h
  · intro cs rt hc
    rw [Add_eq_callEach]
    exact callEach_total H v "add" cs hc rt
  · intro pre c post rt rt1 e hpre hc
    rw [Add_eq_callEach] at hpre ⊢
    exact callEach_fault H v "add" pre c post rt rt1 e hpre hc
  · intro cs rt rt1 h
    rw [Remove_eq_callEach] at h
    exact callEach_ok_log H v "remove" cs rt rt1 h
  · intro cs rt hc
    rw [Remove_eq_callEach]
    exact callEach_total H v "remove" cs hc rt
  · intro pre c post rt rt1 e hpre hc
    rw [Remove_eq_callEach] at hpre ⊢
    exact callEach_fault H v "remove" pre c post rt rt1 e hpre hc

/-- Witness of C6 on the reference host, which rejects the empty class name:
three entries with a duplicate give three `add` calls in order; `Add("a", "",
"b")` faults on the second entry with `a` added and kept and `b` never tried;
likewise for `Remove` on an element of classes `a`, `b`. -/
theorem Add_Remove_entrywise_witness :
    ((Add refHost (some ⟨.classList⟩) ["a", "b", "a"] (freshRun refState0 (0 : Nat))).2.log
      = (freshRun refState0 (0 : Nat)).log
        ++ ["a", "b", "a"].map (fun c => HostOp.call RefVal.classList "add" [.str c])) ∧
    (∃ rt1, Add refHost (some ⟨.classList⟩) ["a", "b"] (freshRun refState0 (0 : Nat))
      = (.ok (), rt1)) ∧
    (Add refHost (some ⟨.classList⟩) (["a"] ++ "" :: ["b"]) (freshRun refState0 (0 : Nat))
      = (.error .host,
          (Add refHost (some ⟨.classList⟩) ["a"] (freshRun refState0 (0 : Nat))).2.record
            (.call .classList "add" [.str ""]))) ∧
    (Add refHost (some ⟨.classList⟩) ["a"] (freshRun refState0 (0 : Nat))).2.host.classes
      = ["a"] ∧
    ((Remove refHost (some ⟨.classList⟩) ["b", "b"]
        (freshRun { refState0 with classes := ["a", "b"] } (0 : Nat))).2.log
      = (freshRun { refState0 with classes := ["a", "b"] } (0 : Nat)).log
        ++ ["b", "b"].map (fun c => HostOp.call RefVal.classList "remove" [.str c])) ∧
    (∃ rt1, Remove refHost (some ⟨.classList⟩) ["b", "b"]
        (freshRun { refState0 with classes := ["a", "b"] } (0 : Nat)) = (.ok (), rt1)) ∧
    (Remove refHost (some ⟨.classList⟩) (["a"] ++ "" :: ["b"])
        (freshRun { refState0 with classes := ["a", "b"] } (0 : Nat))
      = (.error .host,
          (Remove refHost (some ⟨.classList⟩) ["a"]
            (freshRun { refState0 with classes := ["a", "b"] } (0 : Nat))).2.record
            (.call .classList "remove" [.str ""]))) ∧
    (Remove refHost (some ⟨.classList⟩) ["a"]
        (freshRun { refState0 with classes := ["a", "b"] } (0 : Nat))).2.host.classes = ["b"] :=
  ⟨(Add_Remove_entrywise refHost .classList).1 ["a", "b", "a"] _ _ rfl,
   (Add_Remove_entrywise refHost .classList).2.1 ["a", "b"] _
     (fun c hc s => by
       rcases List.mem_pair.mp hc with h | h <;> subst h <;> exact ⟨_, _, rfl⟩),
   (Add_Remove_entrywise refHost .classList).2.2.1 ["a"] "" ["b"] _ _ .host rfl rfl,
   by decide,
   (Add_Remove_entrywise refHost .classList).2.2.2.1 ["b", "b"] _ _ rfl,
   (Add_Remove_entrywise refHost .classList).2.2.2.2.1 ["b", "b"] _
     (fun c hc s => by
       rcases List.mem_pair.mp hc with h | h <;> subst h <;> exact ⟨_, _, rfl⟩),
   (Add_Remove_entrywise refHost .classList).2.2.2.2.2 ["a"] "" ["b"] _ _ .host rfl rfl,
   by decide⟩

/-- C10.  Over a host whose class list `cl` is a set of names (for the name
`c`): starting where `c` is not present, `Add(c)` returns and `Contains(c)` is
then true; a following `Remove(c)` returns and `Contains(c)` is then false; a
second `Remove(c)` returns without a fault and leaves the membership of every
name as it was, which is the membership before `c` was added. -/
theorem class_add_remove_contains {σ V κ : Type} (H : Host σ V) (cl : V)
    (mem : σ → String → Bool) (c : String) (hset : ClassListIsSet H cl mem c)
    (rt : Runtime σ V κ) (habsent : mem rt.host c = false) :
    ∃ rt1 rt2 rt3 rt4 rt5 : Runtime σ V κ,
      Add H (some ⟨cl⟩) [c] rt = (.ok (), rt1) ∧
      Contains H (some ⟨cl⟩) c rt1 = (.ok true, rt2) ∧
      Remove H (some ⟨cl⟩) [c] rt2 = (.ok (), rt3) ∧
      Contains H (some ⟨cl⟩) c rt3 = (.ok false, rt4) ∧
      Remove H (some ⟨cl⟩) [c] rt4 = (.ok (), rt5) ∧
      (∀ x, mem rt5.host x = mem rt4.host x) ∧
      (∀ x, mem rt5.host x = mem rt.host x) := by
  obtain ⟨rt1, e1, m1⟩ := set_add_step H cl mem c hset rt
  obtain ⟨rt2, e2, h2⟩ := set_contains_step H cl mem c hset rt1
  obtain ⟨rt3, e3, m3⟩ := set_remove_step H cl mem c hset rt2
  obtain ⟨rt4, e4, h4⟩ := set_contains_step H cl mem c hset rt3
  obtain ⟨rt5, e5, m5⟩ := set_remove_step H cl mem c hset rt4
  have c1 : mem rt1.host c = true := by simp [m1 c]
  have c3 : mem rt3.host c = false := by simp [m3 c]
  rw [c1] at e2
  rw [c3] at e4
  refine ⟨rt1, rt2, rt3, rt4, rt5, e1, e2, e3, e4, e5, ?_, ?_⟩
  · intro x
    rw [m5 x, h4, m3 x]
    cases (x != c) <;> simp
  · intro x
    rw [m5 x, h4, m3 x, h2, m1 x]
    by_cases hx : x = c
    · subst hx
      simp [habsent]
    · have hne : (x != c) = true := by simp [hx]
      have heq : (x == c) = false := by simp [hx]
      simp [hne, heq]

/-- Witness of C10 on the reference host, whose class list is a list without
repetition, for the class name `a` on an element without classes. -/
theorem class_add_remove_contains_witness :
    ∃ rt1 rt2 rt3 rt4 rt5 : Runtime RefState RefVal Nat,
      Add refHost (some ⟨.classList⟩) ["a"] (freshRun refState0 0) = (.ok (), rt1) ∧
      Contains refHost (some ⟨.classList⟩) "a" rt1 = (.ok true, rt2) ∧
      Remove refHost (some ⟨.classList⟩) ["a"] rt2 = (.ok (), rt3) ∧
      Contains refHost (some ⟨.classList⟩) "a" rt3 = (.ok false, rt4) ∧
      Remove refHost (some ⟨.classList⟩) ["a"] rt4 = (.ok (), rt5) ∧
      (∀ x, rt5.host.classes.contains x = rt4.host.classes.contains x) ∧
      (∀ x, rt5.host.classes.contains x = (freshRun refState0 0 :
        Runtime RefState RefVal Nat).host.classes.contains x) :=
  class_add_remove_contains refHost .classList (fun s x => s.classes.contains x) "a"
    (refHost_classList_isSet "a" (by decide)) (freshRun refState0 0) (by decide)

/-- C5.  Let the host answer `querySelectorAll` with `raw`, a sequence that at
that moment has length `xs.length` and elements `xs`.  Then `QuerySelectorAll`
returns the list of wrappers of `xs`, in host order (so its length is the
length of the host sequence, zero included); the reads it issues are those of
`readOps`, whose index reads all lie below that length; and the returned list
is a value of its own: whatever runs afterwards, a host mutation included,
the list obtained is still the same.  `ChildElements` does the same over the
value the host yields for `children`. -/
theorem sequences_are_snapshots {σ V κ : Type} (H : Host σ V) (v : V) :
    (∀ (q : String) (rt rt1 : Runtime σ V κ) (raw : V) (xs : List V),
      Value.Call H v "querySelectorAll" [.str q] rt = (.ok raw, rt1) →
      H.length rt1.host raw = .ok xs.length →
      (∀ i (hi : i < xs.length), H.index rt1.host raw i = .ok (xs.get ⟨i, hi⟩)) →
      QuerySelectorAll H (some ⟨v⟩) q rt
        = (.ok (xs.map (fun x => some ⟨x⟩)),
            { rt1 with log := rt1.log ++ .length raw :: readOps raw 0 xs.length }) ∧
      (xs.map (fun x => (some ⟨x⟩ : Ptr V))).length = xs.length ∧
      (∀ op ∈ readOps raw 0 xs.length, ∀ r j, op = .index r j → r = raw ∧ j < xs.length) ∧
      (∀ (later : JS σ V κ Unit) (rt2 : Runtime σ V κ),
        later { rt1 with log := rt1.log ++ .length raw :: readOps raw 0 xs.length }
          = (.ok (), rt2) →
        (QuerySelectorAll H (some ⟨v⟩) q >>= fun l => later >>= fun _ => pure l) rt
          = (.ok (xs.map (fun x => some ⟨x⟩)), rt2))) ∧
    (∀ (rt rt1 : Runtime σ V κ) (raw : V) (xs : List V),
      Value.Get H v "children" rt = (.ok raw, rt1) →
      H.length rt1.host raw = .ok xs.length →
      (∀ i (hi : i < xs.length), H.index rt1.host raw i = .ok (xs.get ⟨i, hi⟩)) →
      ChildElements H (some ⟨v⟩) rt
        = (.ok (xs.map (fun x => some ⟨x⟩)),
            { rt1 with log := rt1.log ++ .length raw :: readOps raw 0 xs.length }) ∧
      (xs.map (fun x => (some ⟨x⟩ : Ptr V))).length = xs.length ∧
      (∀ op ∈ readOps raw 0 xs.length, ∀ r j, op = .index r j → r = raw ∧ j < xs.length) ∧
      (∀ (later : JS σ V κ Unit) (rt2 : Runtime σ V κ),
        later { rt1 with log := rt1.log ++ .length raw :: readOps raw 0 xs.length }
          = (.ok (), rt2) →
        (ChildElements H (some ⟨v⟩) >>= fun l => later >>= fun _ => pure l) rt
          = (.ok (xs.map (fun x => some ⟨x⟩)), rt2))) := by
  constructor
  · intro q rt rt1 raw xs hcall hlen hidx
    have hrun : QuerySelectorAll H (some ⟨v⟩) q rt
        = (.ok (xs.map (fun x => some ⟨x⟩)),
            { rt1 with log := rt1.log ++ .length raw :: readOps raw 0 xs.length }) := by
      simp only [QuerySelectorAll, bind_run, bind_ok _ _ _ _ _ (deref_some v rt),
        bind_ok _ _ _ _ _ hcall]
      exact copy_run H raw xs rt1 hlen hidx
    refine ⟨hrun, List.length_map _ _, ?_, ?_⟩
    · intro op hop r j hj
      obtain ⟨h1, _, h3⟩ := readOps_index_bound raw 0 xs.length op hop r j hj
      exact ⟨h1, by omega⟩
    · intro later rt2 hl
      exact then_keep _ later _ rt _ rt2 hrun hl
  · intro rt rt1 raw xs hget hlen hidx
    have hrun : ChildElements H (some ⟨v⟩) rt
        = (.ok (xs.map (fun x => some ⟨x⟩)),
            { rt1 with log := rt1.log ++ .length raw :: readOps raw 0 xs.length }) := by
      simp only [ChildElements, bind_run, bind_ok _ _ _ _ _ (deref_some v rt),
        bind_ok _ _ _ _ _ hget]
      exact copy_run H raw xs rt1 hlen hidx
    refine ⟨hrun, List.length_map _ _, ?_, ?_⟩
    · intro op hop r j hj
      obtain ⟨h1, _, h3⟩ := readOps_index_bound raw 0 xs.length op hop r j hj
      exact ⟨h1, by omega⟩
    · intro later rt2 hl
      exact then_keep _ later _ rt _ rt2 hrun hl

/-- Witness of C5 on the reference host with the children 3 and 5: both
operations return the wrappers of the two children, and appending a third
child afterwards changes the host, not the list already returned. -/
theorem sequences_are_snapshots_witness :
    (QuerySelectorAll refHost (some ⟨.el⟩) "*" (freshRun twoKids (0 : Nat))).1
      = .ok [some ⟨.kid 3⟩, some ⟨.kid 5⟩] ∧
    ((QuerySelectorAll refHost (some ⟨.el⟩) "*" >>= fun l =>
        AppendChild refHost (some ⟨.el⟩) (some ⟨.kid 7⟩) >>= fun _ => pure l)
      (freshRun twoKids (0 : Nat))).1 = .ok [some ⟨.kid 3⟩, some ⟨.kid 5⟩] ∧
    ((QuerySelectorAll refHost (some ⟨.el⟩) "*" >>= fun l =>
        AppendChild refHost (some ⟨.el⟩) (some ⟨.kid 7⟩) >>= fun _ => pure l)
      (freshRun twoKids (0 : Nat))).2.host.kids = [3, 5, 7] ∧
    (ChildElements refHost (some ⟨.el⟩) (freshRun twoKids (0 : Nat))).1
      = .ok [some ⟨.kid 3⟩, some ⟨.kid 5⟩] ∧
    ((ChildElements refHost (some ⟨.el⟩) >>= fun l =>
        AppendChild refHost (some ⟨.el⟩) (some ⟨.kid 7⟩) >>= fun _ => pure l)
      (freshRun twoKids (0 : Nat))).1 = .ok [some ⟨.kid 3⟩, some ⟨.kid 5⟩] ∧
    ((ChildElements refHost (some ⟨.el⟩) >>= fun l =>
        AppendChild refHost (some ⟨.el⟩) (some ⟨.kid 7⟩) >>= fun _ => pure l)
      (freshRun twoKids (0 : Nat))).2.host.kids = [3, 5, 7] :=
  ⟨congrArg Prod.fst
     ((sequences_are_snapshots refHost .el).1 "*" (freshRun twoKids (0 : Nat)) _
       (.nodeList [3, 5]) [.kid 3, .kid 5] rfl rfl (by decide)).1,
   congrArg Prod.fst
     (((sequences_are_snapshots refHost .el).1 "*" (freshRun twoKids (0 : Nat)) _
       (.nodeList [3, 5]) [.kid 3, .kid 5] rfl rfl (by decide)).2.2.2
       (AppendChild refHost (some ⟨.el⟩) (some ⟨.kid 7⟩)) _ rfl),
   congrArg (fun p => p.2.host.kids)
     (((sequences_are_snapshots refHost .el).1 "*" (freshRun twoKids (0 : Nat)) _
       (.nodeList [3, 5]) [.kid 3, .kid 5] rfl rfl (by decide)).2.2.2
       (AppendChild refHost (some ⟨.el⟩) (some ⟨.kid 7⟩)) _ rfl),
   congrArg Prod.fst
     ((sequences_are_snapshots refHost .el).2 (freshRun twoKids (0 : Nat)) _
       .children [.kid 3, .kid 5] rfl rfl (by decide)).1,
   congrArg Prod.fst
     (((sequences_are_snapshots refHost .el).2 (freshRun twoKids (0 : Nat)) _
       .children [.kid 3, .kid 5] rfl rfl (by decide)).2.2.2
       (AppendChild refHost (some ⟨.el⟩) (some ⟨.kid 7⟩)) _ rfl),
   congrArg (fun p => p.2.host.kids)
     (((sequences_are_snapshots refHost .el).2 (freshRun twoKids (0 : Nat)) _
       .children [.kid 3, .kid 5] rfl rfl (by decide)).2.2.2
       (AppendChild refHost (some ⟨.el⟩) (some ⟨.kid 7⟩)) _ rfl)⟩

/-- C2.  Let the host accept the registration.  Then `AddEventListener(e, u,
cb)` makes one Go function, the bridge, registers it with the host by exactly
one call `addEventListener(e, bridge, u)`, and returns that same function as
the handle.  Whenever the host invokes the bridge with a raw event `x` as
first argument, the callback runs once, before the invocation returns, on the
wrapper whose underlying value is `x`.  Hence a `DispatchEvent` for which the
host invokes the bridge once runs the callback exactly once on the wrapper of
the event, and two such dispatches run it exactly twice. -/
theorem AddEventListener_bridges_callback {σ V κ : Type} (H : Host σ V) (v : V) (e : String)
    (u : Bool) (function : Ptr V → κ → κ) (rt : Runtime σ V κ) (r : V) (s : σ)
    (hreg : H.call rt.host v "addEventListener" [.str e, .func rt.nextFuncID, .bool u]
      = .ok (r, s, [])) :
    AddEventListener H (some ⟨v⟩) e u function rt
      = (.ok rt.nextFuncID,
          { host := s, funcs := (rt.nextFuncID, bridge function) :: rt.funcs,
            nextFuncID := rt.nextFuncID + 1, caller := rt.caller,
            log := rt.log ++ [.funcOf rt.nextFuncID,
              .call v "addEventListener" [.str e, .func rt.nextFuncID, .bool u]],
            console := rt.console }) ∧
    (∀ (rt2 : Runtime σ V κ) (this x : V) (rest : List V),
      lookupFunc rt2.funcs rt.nextFuncID = some (bridge function) →
      handleEvent ⟨rt.nextFuncID, this, x :: rest⟩ rt2
        = (.ok (), { rt2 with caller := function (some ⟨x⟩) rt2.caller }) ∧
      Underlying (some ⟨x⟩) rt2 = (.ok x, rt2)) ∧
    (∀ (ev r1 : V) (s2 : σ) (this : V) (rest : List V),
      H.call s v "dispatchEvent" [.val ev] = .ok (r1, s2, [⟨rt.nextFuncID, this, ev :: rest⟩]) →
      DispatchEvent H (some ⟨v⟩) (some ⟨ev⟩)
          { host := s, funcs := (rt.nextFuncID, bridge function) :: rt.funcs,
            nextFuncID := rt.nextFuncID + 1, caller := rt.caller,
            log := rt.log ++ [.funcOf rt.nextFuncID,
              .call v "addEventListener" [.str e, .func rt.nextFuncID, .bool u]],
            console := rt.console }
        = (.ok (),
            { host := s2, funcs := (rt.nextFuncID, bridge function) :: rt.funcs,
              nextFuncID := rt.nextFuncID + 1, caller := function (some ⟨ev⟩) rt.caller,
              log := rt.log ++ [.funcOf rt.nextFuncID,
                .call v "addEventListener" [.str e, .func rt.nextFuncID, .bool u],
                .call v "dispatchEvent" [.val ev]],
              console := rt.console }) ∧
      ∀ (r2 : V) (s3 : σ) (this2 : V) (rest2 : List V),
        H.call s2 v "dispatchEvent" [.val ev]
          = .ok (r2, s3, [⟨rt.nextFuncID, this2, ev :: rest2⟩]) →
        (DispatchEvent H (some ⟨v⟩) (some ⟨ev⟩) >>= fun _ =>
            DispatchEvent H (some ⟨v⟩) (some ⟨ev⟩))
          { host := s, funcs := (rt.nextFuncID, bridge function) :: rt.funcs,
            nextFuncID := rt.nextFuncID + 1, caller := rt.caller,
            log := rt.log ++ [.funcOf rt.nextFuncID,
              .call v "addEventListener" [.str e, .func rt.nextFuncID, .bool u]],
            console := rt.console }
        = (.ok (),
            { host := s3, funcs := (rt.nextFuncID, bridge function) :: rt.funcs,
              nextFuncID := rt.nextFuncID + 1,
              caller := function (some ⟨ev⟩) (function (some ⟨ev⟩) rt.caller),
              log := rt.log ++ [.funcOf rt.nextFuncID,
                .call v "addEventListener" [.str e, .func rt.nextFuncID, .bool u],
                .call v "dispatchEvent" [.val ev], .call v "dispatchEvent" [.val ev]],
              console := rt.console })) := by
  have hlook : lookupFunc ((rt.nextFuncID, bridge function) :: rt.funcs) rt.nextFuncID
      = some (bridge function) := by
    simp [lookupFunc]
  refine ⟨?_, ?_, ?_⟩
  · have hf : (FuncOf (bridge function) : JS σ V κ Nat) rt
        = (.ok rt.nextFuncID,
            { rt with funcs := (rt.nextFuncID, bridge function) :: rt.funcs,
                      nextFuncID := rt.nextFuncID + 1,
                      log := rt.log ++ [.funcOf rt.nextFuncID] }) := rfl
    have hc := Call_ok_nil H v "addEventListener"
      [.str e, .func rt.nextFuncID, .bool u]
      ({ rt with funcs := (rt.nextFuncID, bridge function) :: rt.funcs,
                 nextFuncID := rt.nextFuncID + 1,
                 log := rt.log ++ [.funcOf rt.nextFuncID] } : Runtime σ V κ) r s hreg
    simp only [AddEventListener, bind_run, bind_ok _ _ _ _ _ hf,
      bind_ok _ _ _ _ _ (deref_some v _), bind_ok _ _ _ _ _ hc, pure_run]
    simp
  · intro rt2 this x rest hf
    exact ⟨handleEvent_live ⟨rt.nextFuncID, this, x :: rest⟩ (bridge function) _ rt2 hf rfl, rfl⟩
  · intro ev r1 s2 this rest h1
    have d1 := Dispatch_run H v ev
      ({ host := s, funcs := (rt.nextFuncID, bridge function) :: rt.funcs,
         nextFuncID := rt.nextFuncID + 1, caller := rt.caller,
         log := rt.log ++ [.funcOf rt.nextFuncID,
           .call v "addEventListener" [.str e, .func rt.nextFuncID, .bool u]],
         console := rt.console } : Runtime σ V κ)
      r1 s2 ⟨rt.nextFuncID, this, ev :: rest⟩ (bridge function)
      (function (some ⟨ev⟩) rt.caller) h1 hlook rfl
    refine ⟨?_, ?_⟩
    · rw [d1]
      simp
    · intro r2 s3 this2 rest2 h2
      have d2 := Dispatch_run H v ev
        ({ host := s2, funcs := (rt.nextFuncID, bridge function) :: rt.funcs,
           nextFuncID := rt.nextFuncID + 1, caller := function (some ⟨ev⟩) rt.caller,
           log := rt.log ++ [.funcOf rt.nextFuncID,
             .call v "addEventListener" [.str e, .func rt.nextFuncID, .bool u]]
             ++ [.call v "dispatchEvent" [.val ev]],
           console := rt.console } : Runtime σ V κ)
        r2 s3 ⟨rt.nextFuncID, this2, ev :: rest2⟩ (bridge function)
        (function (some ⟨ev⟩) (function (some ⟨ev⟩) rt.caller)) h2 hlook rfl
      rw [bind_run, bind_ok _ _ _ _ _ d1, d2]
      simp

/-- Witness of C2 on the reference host, with a callback that counts its
invocations in the caller state: after `AddEventListener("click", false, cb)`
the handle is the function 0, one dispatch of a click leaves the count at 1,
two dispatches leave it at 2. -/
theorem AddEventListener_bridges_callback_witness :
    (AddEventListener refHost (some ⟨.el⟩) "click" false (fun _ n => n + 1)
        (freshRun refState0 (0 : Nat))).1 = .ok 0 ∧
    (AddEventListener refHost (some ⟨.el⟩) "click" false (fun _ n => n + 1)
        (freshRun refState0 (0 : Nat))).2.log
      = [.funcOf 0, .call .el "addEventListener" [.str "click", .func 0, .bool false]] ∧
    (DispatchEvent refHost (some ⟨.el⟩) (some ⟨.event "click"⟩)
        (AddEventListener refHost (some ⟨.el⟩) "click" false (fun _ n => n + 1)
          (freshRun refState0 (0 : Nat))).2).2.caller = 1 ∧
    ((DispatchEvent refHost (some ⟨.el⟩) (some ⟨.event "click"⟩) >>= fun _ =>
        DispatchEvent refHost (some ⟨.el⟩) (some ⟨.event "click"⟩))
        (AddEventListener refHost (some ⟨.el⟩) "click" false (fun _ n => n + 1)
          (freshRun refState0 (0 : Nat))).2).2.caller = 2 :=
  ⟨congrArg Prod.fst
     (AddEventListener_bridges_callback refHost .el "click" false (fun _ n => n + 1)
       (freshRun refState0 (0 : Nat)) .undefined
       { refState0 with listeners := [("click", 0, false)] } rfl).1,
   congrArg (fun p => p.2.log)
     (AddEventListener_bridges_callback refHost .el "click" false (fun _ n => n + 1)
       (freshRun refState0 (0 : Nat)) .undefined
       { refState0 with listeners := [("click", 0, false)] } rfl).1,
   congrArg (fun p => p.2.caller)
     ((AddEventListener_bridges_callback refHost .el "click" false (fun _ n => n + 1)
       (freshRun refState0 (0 : Nat)) .undefined
       { refState0 with listeners := [("click", 0, false)] } rfl).2.2
       (.event "click") (.bool true) { refState0 with listeners := [("click", 0, false)] }
       .el [] rfl).1,
   congrArg (fun p => p.2.caller)
     (((AddEventListener_bridges_callback refHost .el "click" false (fun _ n => n + 1)
       (freshRun refState0 (0 : Nat)) .undefined
       { refState0 with listeners := [("click", 0, false)] } rfl).2.2
       (.event "click") (.bool true) { refState0 with listeners := [("click", 0, false)] }
       .el [] rfl).2
       (.bool true) { refState0 with listeners := [("click", 0, false)] } .el [] rfl)⟩

end Domini
